import Mathlib

/-!
A shallow embedding of the WebSocket room-broadcast core of the ChatVerse
server (`server/routes.ts`).  Sockets are modelled as natural-number
handles; the two global maps `connectedUsers` and `roomSockets` become the
fields of `ServerState`, kept as insertion-ordered association lists (JS
`Map` iterates in insertion order, and `Map.set` on an existing key keeps
its position).  Outbound `socket.send` calls and external storage calls
become an explicit list of `Effect`s; the environment `Env` supplies what
the handlers read from the outside world (each socket's `readyState` and
whether `storage.getUser` resolves a user id).
-/

namespace ChatVerse

/-- The per-connection record stored in `connectedUsers` (`SocketUser` in
`routes.ts`; the `socket` back-pointer is the map key itself here). -/
structure SocketUser where
  userId : String
  roomId : Option String := none
deriving DecidableEq

/-- The server's in-memory registry: `connectedUsers` maps socket handles to
their `SocketUser`, `roomSockets` maps room ids to the set (insertion-ordered
list) of member sockets. -/
structure ServerState where
  connectedUsers : List (Nat × SocketUser)
  roomSockets : List (String × List Nat)
deriving DecidableEq

/-- What the handlers read from outside: each socket's
`readyState === WebSocket.OPEN` and whether `storage.getUser` finds a user. -/
structure Env where
  isOpen : Nat → Bool
  userExists : String → Bool

/-- Outbound frame types sent over a socket (the `type`/`data` payloads of
`ws.send` / broadcast calls in `routes.ts`, with the fields the claims need). -/
inductive OutFrame
  | authenticated
  | onlineUsers (users : List String)
  | roomJoined (roomId : String)
  | newMessage (content msgType roomId userId : String) (imageUrl : Option String)
  | messageBlocked (reason : String)
  | userTyping (userId : String) (isTyping : Bool)
  | userStatusChanged (userId status : String)
  | errorFrame (msg : String)
deriving DecidableEq

/-- Observable side effects of a handler: socket sends and external storage
calls (`storage.createMessage`, `storage.updateUserStatus`, ...). -/
inductive Effect
  | send (sock : Nat) (frame : OutFrame)
  | persistMessage (roomId userId content msgType : String) (imageUrl : Option String)
  | updateUserStatus (userId status : String)
  | updateLastRead (roomId userId : String)
  | updateTypingStatus (roomId userId : String) (typing : Bool)
deriving DecidableEq

/-- Inbound frames of the WebSocket protocol.  `sendMessage` keeps the raw
optional payload fields (`content`, `type`, `imageUrl`), `authenticate` the
raw optional `userId`, so the handlers can reproduce the JS truthiness
checks. -/
inductive InFrame
  | authenticate (userId : Option String)
  | joinRoom (roomId : String)
  | sendMessage (content : Option String) (msgType : Option String) (imageUrl : Option String)
  | typingStart
  | typingStop
deriving DecidableEq

/-- JS truthiness of an optional string: `undefined` and `""` are falsy. -/
def jsTruthy : Option String → Bool
  | none => false
  | some s => s ≠ ""

/-- Association-list lookup (`Map.get`). -/
def lookupA {α β : Type} [DecidableEq α] (k : α) : List (α × β) → Option β
  | [] => none
  | (k', v) :: t => if k = k' then some v else lookupA k t

/-- Association-list update (`Map.set`): replaces in place if the key exists,
otherwise appends — exactly JS `Map` insertion-order semantics. -/
def setA {α β : Type} [DecidableEq α] (k : α) (v : β) : List (α × β) → List (α × β)
  | [] => [(k, v)]
  | (k', v') :: t => if k = k' then (k, v) :: t else (k', v') :: setA k v t

/-- Association-list removal (`Map.delete`). -/
def eraseA {α β : Type} [DecidableEq α] (k : α) : List (α × β) → List (α × β)
  | [] => []
  | (k', v') :: t => if k = k' then t else (k', v') :: eraseA k t

/-- JS `Set.add`: append if absent. -/
def setInsert (ws : Nat) (l : List Nat) : List Nat :=
  if ws ∈ l then l else l ++ [ws]

/-- JS `Set.delete`. -/
def setRemove (ws : Nat) (l : List Nat) : List Nat :=
  l.filter (fun w => w ≠ ws)

/-- The member-socket set of a room (`roomSockets.get(roomId)`, empty when
the room has no entry). -/
def socketsIn (st : ServerState) (r : String) : List Nat :=
  (lookupA r st.roomSockets).getD []

/-- `socket !== excludeSocket` for an optional exclusion argument. -/
def notExcluded (exclude : Option Nat) (w : Nat) : Bool :=
  match exclude with
  | none => true
  | some e => !(w == e)

/-- `broadcastToAll(message, excludeSocket?)`: send to every registered
connection whose socket is OPEN, except the excluded one.  It only emits
sends — it never touches the registry maps. -/
def broadcastToAll (env : Env) (st : ServerState) (frame : OutFrame)
    (exclude : Option Nat) : List Effect :=
  (st.connectedUsers.filter (fun p => notExcluded exclude p.1 && env.isOpen p.1)).map
    (fun p => Effect.send p.1 frame)

/-- `getOnlineUsers()`: the distinct user ids of all registered connections,
first occurrence kept (JS `new Set` insertion order). -/
def jsSetDedup : List String → List String
  | [] => []
  | x :: xs => x :: jsSetDedup (xs.filter (fun y => y ≠ x))
termination_by l => l.length
decreasing_by
  exact Nat.lt_succ_of_le (List.length_filter_le _ _)

def getOnlineUsers (st : ServerState) : List String :=
  jsSetDedup (st.connectedUsers.map (fun p => p.2.userId))

/-- The profanity block-list of `routes.ts`. -/
def inappropriateWords : List String := ["badword1", "badword2", "spam", "hate"]

/-- Boolean prefix test on character lists. -/
def isPrefixOfC : List Char → List Char → Bool
  | [], _ => true
  | _ :: _, [] => false
  | a :: as, b :: bs => (a == b) && isPrefixOfC as bs

/-- Boolean contiguous-substring test (JS `String.prototype.includes`). -/
def containsSub (needle : List Char) : List Char → Bool
  | [] => needle.isEmpty
  | c :: cs => isPrefixOfC needle (c :: cs) || containsSub needle cs

/-- `text.toLowerCase()` (ASCII, as `Char.toLower`). -/
def jsToLower (s : String) : String :=
  String.mk (s.data.map Char.toLower)

/-- `containsInappropriateContent(text)`: case-insensitive substring match
against the block-list. -/
def containsInappropriateContent (text : String) : Bool :=
  inappropriateWords.any (fun w => containsSub w.data (jsToLower text).data)

/-- `broadcastToRoom(roomId, message, excludeSocket?)`: send to every socket
in the room's membership set that is OPEN and not excluded; nothing if the
room has no entry.  Emits only sends — no registry mutation, no pruning. -/
def broadcastToRoom (env : Env) (st : ServerState) (roomId : String)
    (frame : OutFrame) (exclude : Option Nat) : List Effect :=
  match lookupA roomId st.roomSockets with
  | none => []
  | some sockets =>
    (sockets.filter (fun w => notExcluded exclude w && env.isOpen w)).map
      (fun w => Effect.send w frame)

/-- The `authenticate` case: on a truthy `userId`, overwrite the registry
entry with a fresh record (no `roomId`), persist online status, confirm,
broadcast the status change (sender excluded) when the user resolves, and
send the online-users snapshot; on a falsy `userId`, do nothing. -/
def handleAuthenticate (env : Env) (ws : Nat) (st : ServerState)
    (userId : Option String) : ServerState × List Effect :=
  match userId with
  | none => (st, [])
  | some uid =>
    if uid = "" then (st, [])
    else
      let st' : ServerState :=
        { st with connectedUsers := setA ws { userId := uid } st.connectedUsers }
      let statusBroadcast :=
        if env.userExists uid then
          broadcastToAll env st' (OutFrame.userStatusChanged uid "online") (some ws)
        else []
      let onlineData := (getOnlineUsers st').filter env.userExists
      (st',
        Effect.updateUserStatus uid "online"
          :: Effect.send ws OutFrame.authenticated
          :: statusBroadcast ++ [Effect.send ws (OutFrame.onlineUsers onlineData)])

/-- The `join_room` case: unauthenticated sockets are silently dropped;
otherwise remove the socket from its previous room's set (if any), record
the new room on the `SocketUser`, add the socket to the new room's set
(creating the entry if needed), update last-read, and confirm. -/
def handleJoinRoom (_env : Env) (ws : Nat) (st : ServerState)
    (roomId : String) : ServerState × List Effect :=
  match lookupA ws st.connectedUsers with
  | none => (st, [])
  | some u =>
    let rs₁ :=
      match u.roomId with
      | none => st.roomSockets
      | some prev =>
        match lookupA prev st.roomSockets with
        | none => st.roomSockets
        | some s => setA prev (setRemove ws s) st.roomSockets
    let rs₂ := setA roomId (setInsert ws ((lookupA roomId rs₁).getD [])) rs₁
    ({ connectedUsers := setA ws { u with roomId := some roomId } st.connectedUsers,
       roomSockets := rs₂ },
      [Effect.updateLastRead roomId u.userId,
        Effect.send ws (OutFrame.roomJoined roomId)])

/-- The `send_message` case: drop silently unless authenticated and in a
room; drop silently when both `content` and `imageUrl` are falsy; reply
`message_blocked` to the sender when truthy content fails the filter;
otherwise persist the message and broadcast `new_message` to the room with
no exclusion. -/
def handleSendMessage (env : Env) (ws : Nat) (st : ServerState)
    (content : Option String) (msgType : Option String) (imageUrl : Option String) :
    ServerState × List Effect :=
  match lookupA ws st.connectedUsers with
  | none => (st, [])
  | some u =>
    match u.roomId with
    | none => (st, [])
    | some room =>
      if !(jsTruthy content) && !(jsTruthy imageUrl) then (st, [])
      else if jsTruthy content && containsInappropriateContent (content.getD "") then
        (st, [Effect.send ws (OutFrame.messageBlocked "Inappropriate content detected")])
      else
        (st,
          Effect.persistMessage room u.userId (content.getD "") (msgType.getD "text") imageUrl
            :: broadcastToRoom env st room
                (OutFrame.newMessage (content.getD "") (msgType.getD "text") room u.userId imageUrl)
                none)

/-- The `typing_start` case. -/
def handleTypingStart (env : Env) (ws : Nat) (st : ServerState) :
    ServerState × List Effect :=
  match lookupA ws st.connectedUsers with
  | none => (st, [])
  | some u =>
    match u.roomId with
    | none => (st, [])
    | some room =>
      (st,
        Effect.updateTypingStatus room u.userId true
          :: broadcastToRoom env st room (OutFrame.userTyping u.userId true) (some ws))

/-- The `typing_stop` case. -/
def handleTypingStop (env : Env) (ws : Nat) (st : ServerState) :
    ServerState × List Effect :=
  match lookupA ws st.connectedUsers with
  | none => (st, [])
  | some u =>
    match u.roomId with
    | none => (st, [])
    | some room =>
      (st,
        Effect.updateTypingStatus room u.userId false
          :: broadcastToRoom env st room (OutFrame.userTyping u.userId false) (some ws))

/-- The `ws.on('message')` dispatcher over well-formed frames. -/
def handleFrame (env : Env) (ws : Nat) (st : ServerState) :
    InFrame → ServerState × List Effect
  | InFrame.authenticate uid => handleAuthenticate env ws st uid
  | InFrame.joinRoom r => handleJoinRoom env ws st r
  | InFrame.sendMessage c t i => handleSendMessage env ws st c t i
  | InFrame.typingStart => handleTypingStart env ws st
  | InFrame.typingStop => handleTypingStop env ws st

/-- The `ws.on('close')` handler: for registered sockets, persist offline
status, clear room membership and typing state with a room broadcast, then
broadcast the offline status change to everyone (the closing socket is
still registered at that point) and finally delete the registry entry. -/
def handleClose (env : Env) (ws : Nat) (st : ServerState) :
    ServerState × List Effect :=
  match lookupA ws st.connectedUsers with
  | none => (st, [])
  | some u =>
    let roomStep : ServerState × List Effect :=
      match u.roomId with
      | none => (st, [])
      | some r =>
        match lookupA r st.roomSockets with
        | none => (st, [])
        | some s =>
          let st' : ServerState :=
            { st with roomSockets := setA r (setRemove ws s) st.roomSockets }
          (st',
            Effect.updateTypingStatus r u.userId false
              :: broadcastToRoom env st' r (OutFrame.userTyping u.userId false) none)
    let st₁ := roomStep.1
    let offlineBroadcast :=
      if env.userExists u.userId then
        broadcastToAll env st₁ (OutFrame.userStatusChanged u.userId "offline") none
      else []
    ({ st₁ with connectedUsers := eraseA ws st₁.connectedUsers },
      Effect.updateUserStatus u.userId "offline" :: (roomStep.2 ++ offlineBroadcast))

/-- Iterated `join_room` by one connection (state component only). -/
def joinSeq (env : Env) (ws : Nat) : List String → ServerState → ServerState
  | [], st => st
  | r :: rs, st => joinSeq env ws rs (handleJoinRoom env ws st r).1

/-- Environment in which every socket is OPEN and every user id resolves. -/
def envAll : Env := ⟨fun _ => true, fun _ => true⟩

/-! ### Association-list lemmas -/

theorem lookupA_setA_self {α β : Type} [DecidableEq α] (k : α) (v : β)
    (l : List (α × β)) : lookupA k (setA k v l) = some v := by
  induction l with
  | nil => simp [setA, lookupA]
  | cons p t ih =>
    obtain ⟨k', v'⟩ := p
    by_cases h : k = k'
    · simp [setA, h, lookupA]
    · simp [setA, h, lookupA, ih]

theorem lookupA_setA_ne {α β : Type} [DecidableEq α] {k k' : α} (v : β)
    (l : List (α × β)) (h : k' ≠ k) :
    lookupA k' (setA k v l) = lookupA k' l := by
  induction l with
  | nil => simp [setA, lookupA, h]
  | cons p t ih =>
    obtain ⟨k₁, v₁⟩ := p
    by_cases hk : k = k₁
    · subst hk
      simp [setA, lookupA, h]
    · by_cases hk' : k' = k₁ <;> simp [setA, lookupA, hk, hk', ih]

theorem lookupA_eraseA_ne {α β : Type} [DecidableEq α] {k k' : α}
    (l : List (α × β)) (h : k' ≠ k) :
    lookupA k' (eraseA k l) = lookupA k' l := by
  induction l with
  | nil => simp [eraseA]
  | cons p t ih =>
    obtain ⟨k₁, v₁⟩ := p
    by_cases hk : k = k₁
    · subst hk
      simp [eraseA, lookupA, h]
    · by_cases hk' : k' = k₁ <;> simp [eraseA, lookupA, hk, hk', ih]

theorem lookupA_mem {α β : Type} [DecidableEq α] {k : α} {v : β}
    {l : List (α × β)} (h : lookupA k l = some v) : (k, v) ∈ l := by
  induction l with
  | nil => simp [lookupA] at h
  | cons p t ih =>
    obtain ⟨k₁, v₁⟩ := p
    by_cases hk : k = k₁
    · subst hk
      simp [lookupA] at h
      simp [h]
    · simp [lookupA, hk] at h
      exact List.mem_cons_of_mem _ (ih h)

theorem mem_setInsert_self (ws : Nat) (l : List Nat) : ws ∈ setInsert ws l := by
  unfold setInsert
  by_cases h : ws ∈ l <;> simp [h]

theorem not_mem_setRemove_self (ws : Nat) (l : List Nat) : ws ∉ setRemove ws l := by
  simp [setRemove]

/-! ### Broadcast lemmas -/

theorem broadcastToRoom_no_exclusion (env : Env) (st : ServerState)
    (roomId : String) (frame : OutFrame) :
    broadcastToRoom env st roomId frame none =
      ((socketsIn st roomId).filter env.isOpen).map (fun w => Effect.send w frame) := by
  unfold broadcastToRoom socketsIn
  cases h : lookupA roomId st.roomSockets with
  | none => simp
  | some sockets => simp [notExcluded]

theorem send_mem_broadcastToAll (env : Env) (st : ServerState) (frame : OutFrame)
    {ws : Nat} {u : SocketUser} (h : lookupA ws st.connectedUsers = some u)
    (hop : env.isOpen ws = true) :
    Effect.send ws frame ∈ broadcastToAll env st frame none := by
  unfold broadcastToAll
  exact List.mem_map.2 ⟨(ws, u),
    List.mem_filter.2 ⟨lookupA_mem h, by simp [notExcluded, hop]⟩, rfl⟩

theorem mem_broadcastToAll_shape (env : Env) (st : ServerState) (frame : OutFrame)
    (exclude : Option Nat) {e : Effect}
    (h : e ∈ broadcastToAll env st frame exclude) : ∃ w, e = Effect.send w frame := by
  unfold broadcastToAll at h
  obtain ⟨p, _, rfl⟩ := List.mem_map.1 h
  exact ⟨p.1, rfl⟩

/-! ### Room-membership invariant for `join_room` -/

/-- The connection `ws` is registered with user id `uid` and recorded room
`ρ`, and it sits in exactly the room sets that `ρ` names. -/
def JoinInv (st : ServerState) (ws : Nat) (uid : String) (ρ : Option String) : Prop :=
  lookupA ws st.connectedUsers = some { userId := uid, roomId := ρ } ∧
    ∀ r, ws ∈ socketsIn st r ↔ ρ = some r

theorem handleJoinRoom_inv (env : Env) (ws : Nat) (st : ServerState)
    (uid : String) (ρ : Option String) (B : String) (h : JoinInv st ws uid ρ) :
    JoinInv (handleJoinRoom env ws st B).1 ws uid (some B) := by
  obtain ⟨hc, hm⟩ := h
  simp only [handleJoinRoom, hc]
  cases ρ with
  | none =>
    refine ⟨lookupA_setA_self _ _ _, fun r => ?_⟩
    by_cases hrB : r = B
    · subst hrB
      simp [socketsIn, lookupA_setA_self, mem_setInsert_self]
    · have hne : r ≠ B := hrB
      simp only [socketsIn, lookupA_setA_ne _ _ hne]
      have hmr := hm r
      simp only [socketsIn] at hmr
      simp [hmr, hne.symm]
  | some p =>
    have hp : ws ∈ socketsIn st p := (hm p).2 rfl
    cases hps : lookupA p st.roomSockets with
    | none => simp [socketsIn, hps] at hp
    | some s =>
      simp only [hps]
      refine ⟨lookupA_setA_self _ _ _, fun r => ?_⟩
      by_cases hrB : r = B
      · subst hrB
        simp [socketsIn, lookupA_setA_self, mem_setInsert_self]
      · have hne : r ≠ B := hrB
        simp only [socketsIn, lookupA_setA_ne _ _ hne]
        by_cases hrp : r = p
        · subst hrp
          simp [lookupA_setA_self, not_mem_setRemove_self, hne.symm]
        · simp only [lookupA_setA_ne _ _ hrp]
          have hmr := hm r
          simp only [socketsIn] at hmr
          simp [hmr, Ne.symm hrp, hne.symm]

theorem joinSeq_inv (env : Env) (ws : Nat) :
    ∀ (rooms : List String) (st : ServerState) (uid : String) (ρ : Option String),
      JoinInv st ws uid ρ →
      JoinInv (joinSeq env ws rooms st) ws uid
        (rooms.foldl (fun _ r => some r) ρ) := by
  intro rooms
  induction rooms with
  | nil => intro st uid ρ h; simpa [joinSeq] using h
  | cons r rs ih =>
    intro st uid ρ h
    simpa [joinSeq, List.foldl_cons] using
      ih (handleJoinRoom env ws st r).1 uid (some r)
        (handleJoinRoom_inv env ws st uid ρ r h)

theorem foldl_lastRoom_some (rooms : List String) :
    ∀ (ρ : Option String), rooms ≠ [] →
      ∃ l, rooms.foldl (fun _ r => some r) ρ = some l := by
  induction rooms with
  | nil => intro ρ h; exact absurd rfl h
  | cons r rs ih =>
    intro ρ _
    rcases hrs : rs with _ | ⟨a, t⟩
    · exact ⟨r, by simp⟩
    · subst hrs
      simpa [List.foldl_cons] using ih (some r) (by simp)

/-! ### The successful `send_message` path -/

theorem handleSendMessage_success (env : Env) (ws : Nat) (st : ServerState)
    (u : SocketUser) (room s : String) (mt img : Option String)
    (hc : lookupA ws st.connectedUsers = some u) (hr : u.roomId = some room)
    (hf : containsInappropriateContent s = false) (hs : s ≠ "") :
    handleSendMessage env ws st (some s) mt img =
      (st, Effect.persistMessage room u.userId s (mt.getD "text") img
        :: ((socketsIn st room).filter env.isOpen).map
            (fun w => Effect.send w
              (OutFrame.newMessage s (mt.getD "text") room u.userId img))) := by
  simp [handleSendMessage, hc, hr, jsTruthy, hs, hf, broadcastToRoom_no_exclusion]

/-! ### Claim C1 -/

/-- Two authenticated connections in room "general". -/
def stC1 : ServerState :=
  ⟨[(1, ⟨"u1", some "general"⟩), (2, ⟨"u2", some "general"⟩)], [("general", [1, 2])]⟩

/-- C1, counterexample: connection 1 (user u1) sends "hi" to room "general";
the resulting effects include a `new_message` send back to connection 1
itself, so the sender is not excluded from the broadcast. -/
theorem sendMessage_sender_echo_counterexample :
    Effect.send 1 (OutFrame.newMessage "hi" "text" "general" "u1" none) ∈
      (handleSendMessage envAll 1 stC1 (some "hi") none none).2 := by decide

/-- C1, amended: a `send_message` that passes the emptiness and content
checks leaves the state unchanged and broadcasts `new_message` to every
OPEN socket in the room's membership set with no exclusion — in
particular the sender receives its own echo whenever its socket is in the
room set and OPEN. -/
theorem sendMessage_broadcast_includes_sender (env : Env) (ws : Nat)
    (st : ServerState) (u : SocketUser) (room s : String) (mt img : Option String)
    (hc : lookupA ws st.connectedUsers = some u) (hr : u.roomId = some room)
    (hf : containsInappropriateContent s = false) (hs : s ≠ "") :
    (handleSendMessage env ws st (some s) mt img).1 = st ∧
    (handleSendMessage env ws st (some s) mt img).2 =
      Effect.persistMessage room u.userId s (mt.getD "text") img
        :: ((socketsIn st room).filter env.isOpen).map
            (fun w => Effect.send w
              (OutFrame.newMessage s (mt.getD "text") room u.userId img)) ∧
    (ws ∈ socketsIn st room → env.isOpen ws = true →
      Effect.send ws (OutFrame.newMessage s (mt.getD "text") room u.userId img) ∈
        (handleSendMessage env ws st (some s) mt img).2) := by
  have h := handleSendMessage_success env ws st u room s mt img hc hr hf hs
  refine ⟨by rw [h], by rw [h], fun hmem hop => ?_⟩
  rw [h]
  exact List.mem_cons_of_mem _
    (List.mem_map.2 ⟨ws, List.mem_filter.2 ⟨hmem, hop⟩, rfl⟩)

/-- Two authenticated connections of alice and bob in room "general". -/
def stC1w : ServerState :=
  ⟨[(5, ⟨"alice", some "general"⟩), (6, ⟨"bob", some "general"⟩)],
    [("general", [5, 6])]⟩

/-- Witness for the amended C1 theorem: alice's connection 5 sends "hi" and
receives its own echo. -/
theorem sendMessage_broadcast_includes_sender_witness :
    (handleSendMessage envAll 5 stC1w (some "hi") none none).1 = stC1w ∧
    (handleSendMessage envAll 5 stC1w (some "hi") none none).2 =
      Effect.persistMessage "general" "alice" "hi" "text" none
        :: ((socketsIn stC1w "general").filter envAll.isOpen).map
            (fun w => Effect.send w
              (OutFrame.newMessage "hi" "text" "general" "alice" none)) ∧
    ((5 : Nat) ∈ socketsIn stC1w "general" → envAll.isOpen 5 = true →
      Effect.send 5 (OutFrame.newMessage "hi" "text" "general" "alice" none) ∈
        (handleSendMessage envAll 5 stC1w (some "hi") none none).2) :=
  sendMessage_broadcast_includes_sender envAll 5 stC1w ⟨"alice", some "general"⟩
    "general" "hi" none none (by decide) (by decide) (by decide) (by decide)

/-! ### Claim C6 -/

/-- C6: a `send_message` from an in-room connection whose content fails the
profanity filter produces exactly one `message_blocked` reply to the sender:
no persistence, no broadcast, no state change. -/
theorem blocked_content_replies_message_blocked_only (env : Env) (ws : Nat)
    (st : ServerState) (u : SocketUser) (room s : String) (mt img : Option String)
    (hc : lookupA ws st.connectedUsers = some u) (hr : u.roomId = some room)
    (hb : containsInappropriateContent s = true) :
    handleSendMessage env ws st (some s) mt img =
      (st, [Effect.send ws (OutFrame.messageBlocked "Inappropriate content detected")]) := by
  have hs : s ≠ "" := by
    intro h
    subst h
    exact absurd hb (by decide)
  simp [handleSendMessage, hc, hr, jsTruthy, hs, hb]

/-- Carol's authenticated connection 7 in room "general". -/
def stC6w : ServerState :=
  ⟨[(7, ⟨"carol", some "general"⟩)], [("general", [7])]⟩

/-- Witness for C6: the blocked word "spam" draws only a `message_blocked`
reply. -/
theorem blocked_content_replies_message_blocked_only_witness :
    handleSendMessage envAll 7 stC6w (some "spam") none none =
      (stC6w, [Effect.send 7 (OutFrame.messageBlocked "Inappropriate content detected")]) :=
  blocked_content_replies_message_blocked_only envAll 7 stC6w
    ⟨"carol", some "general"⟩ "general" "spam" none none
    (by decide) (by decide) (by decide)

/-! ### Claim C7 -/

/-- A 501-character message, one over the client-side `maxLength = 500`. -/
def longContent : String := String.mk (List.replicate 501 'a')

set_option maxRecDepth 1000000 in
/-- C7, counterexample: a 501-character `send_message` (over the configured
client maximum of 500) is not treated as malformed — it is persisted, so
the server performs no length re-check. -/
theorem sendMessage_length_counterexample :
    500 < longContent.length ∧
      Effect.persistMessage "general" "u1" longContent "text" none ∈
        (handleSendMessage envAll 1 stC1 (some longContent) none none).2 := by decide

/-- C7, amended: the server performs no length check at all — a
`send_message` longer than the configured client-side maximum of 500 that
passes the emptiness and content-filter checks is persisted and broadcast
normally, with no error reply and no `message_blocked` reply. -/
theorem sendMessage_no_server_length_check (env : Env) (ws : Nat)
    (st : ServerState) (u : SocketUser) (room s : String) (mt img : Option String)
    (hc : lookupA ws st.connectedUsers = some u) (hr : u.roomId = some room)
    (hf : containsInappropriateContent s = false) (hs : s ≠ "")
    (_hlen : 500 < s.length) :
    (handleSendMessage env ws st (some s) mt img).1 = st ∧
    Effect.persistMessage room u.userId s (mt.getD "text") img ∈
      (handleSendMessage env ws st (some s) mt img).2 ∧
    (∀ m, Effect.send ws (OutFrame.errorFrame m) ∉
      (handleSendMessage env ws st (some s) mt img).2) ∧
    (∀ reason, Effect.send ws (OutFrame.messageBlocked reason) ∉
      (handleSendMessage env ws st (some s) mt img).2) := by
  have h := handleSendMessage_success env ws st u room s mt img hc hr hf hs
  refine ⟨by rw [h], by rw [h]; exact List.mem_cons_self _ _,
    fun m hmem => ?_, fun reason hmem => ?_⟩
  · rw [h] at hmem
    rcases List.mem_cons.1 hmem with h1 | h1
    · exact Effect.noConfusion h1
    · obtain ⟨w, _, hw⟩ := List.mem_map.1 h1
      simp at hw
  · rw [h] at hmem
    rcases List.mem_cons.1 hmem with h1 | h1
    · exact Effect.noConfusion h1
    · obtain ⟨w, _, hw⟩ := List.mem_map.1 h1
      simp at hw

set_option maxRecDepth 1000000 in
/-- Witness for the amended C7 theorem: the 501-character message is
persisted and broadcast with no error or blocked reply. -/
theorem sendMessage_no_server_length_check_witness :
    (handleSendMessage envAll 1 stC1 (some longContent) none none).1 = stC1 ∧
    Effect.persistMessage "general" "u1" longContent "text" none ∈
      (handleSendMessage envAll 1 stC1 (some longContent) none none).2 ∧
    (∀ m, Effect.send 1 (OutFrame.errorFrame m) ∉
      (handleSendMessage envAll 1 stC1 (some longContent) none none).2) ∧
    (∀ reason, Effect.send 1 (OutFrame.messageBlocked reason) ∉
      (handleSendMessage envAll 1 stC1 (some longContent) none none).2) :=
  sendMessage_no_server_length_check envAll 1 stC1 ⟨"u1", some "general"⟩
    "general" longContent none none
    (by decide) (by decide) (by decide) (by decide) (by decide)

/-! ### Claim C8 -/

/-- C8: a `send_message` from an in-room connection with falsy content and
falsy imageUrl is silently dropped: no reply, no persistence, no broadcast,
no state change. -/
theorem empty_sendMessage_silently_dropped (env : Env) (ws : Nat)
    (st : ServerState) (u : SocketUser) (room : String) (c t i : Option String)
    (hc : lookupA ws st.connectedUsers = some u) (hr : u.roomId = some room)
    (h1 : jsTruthy c = false) (h2 : jsTruthy i = false) :
    handleSendMessage env ws st c t i = (st, []) := by
  simp [handleSendMessage, hc, hr, h1, h2]

/-- Dave's authenticated connection 8 in room "general". -/
def stC8w : ServerState :=
  ⟨[(8, ⟨"dave", some "general"⟩)], [("general", [8])]⟩

/-- Witness for C8: an empty-content, no-image `send_message` is silently
dropped. -/
theorem empty_sendMessage_silently_dropped_witness :
    handleSendMessage envAll 8 stC8w (some "") none none = (stC8w, []) :=
  empty_sendMessage_silently_dropped envAll 8 stC8w ⟨"dave", some "general"⟩
    "general" (some "") none none (by decide) (by decide) (by decide) (by decide)

/-! ### Claim C2 -/

/-- User "u" with two simultaneous connections, 1 and 2. -/
def stC2 : ServerState := ⟨[(1, ⟨"u", none⟩), (2, ⟨"u", none⟩)], []⟩

/-- C2, counterexample: user "u" has two open connections; closing
connection 1 immediately persists offline status and broadcasts
`user_status_changed(offline)` although connection 2 of the same user is
still registered — presence is not reference counted and the offline
broadcast fires per close, not once after the last close. -/
theorem close_offline_counterexample :
    handleClose envAll 1 stC2 =
      (⟨[(2, ⟨"u", none⟩)], []⟩,
        [Effect.updateUserStatus "u" "offline",
          Effect.send 1 (OutFrame.userStatusChanged "u" "offline"),
          Effect.send 2 (OutFrame.userStatusChanged "u" "offline")]) := by decide

/-- C2, amended: closing any registered connection immediately persists
offline status for its user and (when the user resolves) broadcasts
`user_status_changed(offline)`, even while another connection of the same
user remains registered — so N closes produce N offline broadcasts. -/
theorem close_offline_fires_per_connection (env : Env) (ws ws' : Nat)
    (st : ServerState) (u u' : SocketUser)
    (hc : lookupA ws st.connectedUsers = some u)
    (hne : ws' ≠ ws)
    (hc' : lookupA ws' st.connectedUsers = some u')
    (_hsame : u'.userId = u.userId)
    (hop : env.isOpen ws' = true)
    (hex : env.userExists u.userId = true) :
    Effect.updateUserStatus u.userId "offline" ∈ (handleClose env ws st).2 ∧
    Effect.send ws' (OutFrame.userStatusChanged u.userId "offline") ∈
      (handleClose env ws st).2 ∧
    lookupA ws' (handleClose env ws st).1.connectedUsers = some u' := by
  have hshape : ∃ st₁ : ServerState, st₁.connectedUsers = st.connectedUsers ∧
      ∃ e₂ : List Effect,
        handleClose env ws st =
          ({ st₁ with connectedUsers := eraseA ws st₁.connectedUsers },
            Effect.updateUserStatus u.userId "offline" ::
              (e₂ ++ broadcastToAll env st₁
                (OutFrame.userStatusChanged u.userId "offline") none)) := by
    rcases hR : u.roomId with _ | r
    · exact ⟨st, rfl, [], by simp [handleClose, hc, hR, hex]⟩
    · rcases hS : lookupA r st.roomSockets with _ | s
      · exact ⟨st, rfl, [], by simp [handleClose, hc, hR, hS, hex]⟩
      · refine ⟨{ st with roomSockets := setA r (setRemove ws s) st.roomSockets },
          rfl,
          Effect.updateTypingStatus r u.userId false ::
            broadcastToRoom env
              { st with roomSockets := setA r (setRemove ws s) st.roomSockets }
              r (OutFrame.userTyping u.userId false) none,
          by simp [handleClose, hc, hR, hS, hex]⟩
  obtain ⟨st₁, hcu, e₂, heq⟩ := hshape
  rw [heq]
  refine ⟨List.mem_cons_self _ _, ?_, ?_⟩
  · exact List.mem_cons_of_mem _ (List.mem_append_right _
      (send_mem_broadcastToAll env st₁ _ (by rw [hcu]; exact hc') hop))
  · show lookupA ws' (eraseA ws st₁.connectedUsers) = some u'
    rw [lookupA_eraseA_ne _ hne, hcu]
    exact hc'

/-- User "erin" with two simultaneous connections, 11 and 12. -/
def stC2w : ServerState := ⟨[(11, ⟨"erin", none⟩), (12, ⟨"erin", none⟩)], []⟩

/-- Witness for the amended C2 theorem: closing erin's connection 11 fires
the offline update and broadcast while connection 12 stays registered. -/
theorem close_offline_fires_per_connection_witness :
    Effect.updateUserStatus "erin" "offline" ∈ (handleClose envAll 11 stC2w).2 ∧
    Effect.send 12 (OutFrame.userStatusChanged "erin" "offline") ∈
      (handleClose envAll 11 stC2w).2 ∧
    lookupA 12 (handleClose envAll 11 stC2w).1.connectedUsers =
      some ⟨"erin", none⟩ :=
  close_offline_fires_per_connection envAll 11 12 stC2w ⟨"erin", none⟩
    ⟨"erin", none⟩ (by decide) (by decide) (by decide) (by decide)
    (by decide) (by decide)

/-! ### Claim C3 -/

/-- C3: over any sequence of `join_room` operations by one connection that
starts registered and in no room, the connection sits in at most one room's
membership set, in exactly one once some join happened, and one further
join of room B removes it from any other room A and adds it to B in that
single step. -/
theorem joinRoom_single_room_membership (env : Env) (ws : Nat)
    (st : ServerState) (uid : String) (rooms : List String)
    (h : JoinInv st ws uid none) :
    (∀ r r', ws ∈ socketsIn (joinSeq env ws rooms st) r →
        ws ∈ socketsIn (joinSeq env ws rooms st) r' → r = r') ∧
    (rooms ≠ [] → ∃ r, ws ∈ socketsIn (joinSeq env ws rooms st) r ∧
        ∀ r', ws ∈ socketsIn (joinSeq env ws rooms st) r' → r' = r) ∧
    (∀ B, ws ∈ socketsIn (handleJoinRoom env ws (joinSeq env ws rooms st) B).1 B ∧
        ∀ A, A ≠ B →
          ws ∉ socketsIn (handleJoinRoom env ws (joinSeq env ws rooms st) B).1 A) := by
  obtain ⟨hc, hm⟩ := joinSeq_inv env ws rooms st uid none h
  refine ⟨?_, ?_, ?_⟩
  · intro r r' h1 h2
    have e2 := (hm r').1 h2
    rw [(hm r).1 h1] at e2
    exact Option.some_inj.1 e2
  · intro hne
    obtain ⟨l, hl⟩ := foldl_lastRoom_some rooms none hne
    refine ⟨l, (hm l).2 hl, fun r' h' => ?_⟩
    have e := (hm r').1 h'
    rw [hl] at e
    exact (Option.some_inj.1 e).symm
  · intro B
    obtain ⟨_, hm2⟩ :=
      handleJoinRoom_inv env ws (joinSeq env ws rooms st) uid _ B ⟨hc, hm⟩
    refine ⟨(hm2 B).2 rfl, fun A hA hmem => ?_⟩
    exact hA (Option.some_inj.1 ((hm2 A).1 hmem)).symm

/-- One registered connection, 3, not yet in any room. -/
def stC3w : ServerState := ⟨[(3, ⟨"u1", none⟩)], []⟩

/-- Witness for C3: connection 3 joins rooms "a" then "b". -/
theorem joinRoom_single_room_membership_witness :
    (∀ r r', (3 : Nat) ∈ socketsIn (joinSeq envAll 3 ["a", "b"] stC3w) r →
        (3 : Nat) ∈ socketsIn (joinSeq envAll 3 ["a", "b"] stC3w) r' → r = r') ∧
    (["a", "b"] ≠ ([] : List String) →
      ∃ r, (3 : Nat) ∈ socketsIn (joinSeq envAll 3 ["a", "b"] stC3w) r ∧
        ∀ r', (3 : Nat) ∈ socketsIn (joinSeq envAll 3 ["a", "b"] stC3w) r' → r' = r) ∧
    (∀ B, (3 : Nat) ∈
        socketsIn (handleJoinRoom envAll 3 (joinSeq envAll 3 ["a", "b"] stC3w) B).1 B ∧
        ∀ A, A ≠ B → (3 : Nat) ∉
          socketsIn (handleJoinRoom envAll 3 (joinSeq envAll 3 ["a", "b"] stC3w) B).1 A) :=
  joinRoom_single_room_membership envAll 3 stC3w "u1" ["a", "b"]
    ⟨by decide, fun r => by simp [socketsIn, lookupA, stC3w]⟩

/-! ### Claim C4 -/

/-- Connection 1 already authenticated as u1 and joined to "general". -/
def stC4 : ServerState := ⟨[(1, ⟨"u1", some "general"⟩)], [("general", [1])]⟩

/-- C4, counterexample: a second authenticate on the already-authenticated
connection 1 changes the registry state (the entry is overwritten with
`roomId := none`) and re-sends the `authenticated` confirmation — it does
not fail and does not leave the registry unchanged. -/
theorem authenticate_twice_counterexample :
    (handleAuthenticate envAll 1 stC4 (some "u1")).1 ≠ stC4 ∧
      Effect.send 1 OutFrame.authenticated ∈
        (handleAuthenticate envAll 1 stC4 (some "u1")).2 := by decide

/-- C4, amended: a second authenticate with a truthy userId on an
already-registered connection succeeds again: it overwrites the registry
entry with a fresh record (userId updated, roomId cleared), re-sends the
`authenticated` confirmation, and no error frame is ever sent. -/
theorem authenticate_twice_overwrites (env : Env) (ws : Nat)
    (st : ServerState) (u : SocketUser) (uid : String)
    (_hc : lookupA ws st.connectedUsers = some u) (hu : uid ≠ "") :
    lookupA ws (handleAuthenticate env ws st (some uid)).1.connectedUsers =
      some { userId := uid, roomId := none } ∧
    Effect.send ws OutFrame.authenticated ∈
      (handleAuthenticate env ws st (some uid)).2 ∧
    ∀ m, Effect.send ws (OutFrame.errorFrame m) ∉
      (handleAuthenticate env ws st (some uid)).2 := by
  simp only [handleAuthenticate, if_neg hu]
  refine ⟨lookupA_setA_self _ _ _, by simp, ?_⟩
  intro m hmem
  rcases List.mem_cons.1 hmem with h1 | hmem2
  · exact Effect.noConfusion h1
  rcases List.mem_cons.1 hmem2 with h1 | hmem3
  · simp at h1
  rcases List.mem_append.1 hmem3 with h1 | h1
  · by_cases henv : env.userExists uid
    · rw [if_pos henv] at h1
      obtain ⟨w, hw⟩ := mem_broadcastToAll_shape _ _ _ _ h1
      simp at hw
    · rw [if_neg henv] at h1
      simp at h1
  · simp at h1

/-- Frank's connection 9, authenticated and joined to "general". -/
def stC4w : ServerState := ⟨[(9, ⟨"frank", some "general"⟩)], [("general", [9])]⟩

/-- Witness for the amended C4 theorem: re-authenticating connection 9
overwrites its entry and resends the confirmation. -/
theorem authenticate_twice_overwrites_witness :
    lookupA 9 (handleAuthenticate envAll 9 stC4w (some "frank")).1.connectedUsers =
      some ⟨"frank", none⟩ ∧
    Effect.send 9 OutFrame.authenticated ∈
      (handleAuthenticate envAll 9 stC4w (some "frank")).2 ∧
    ∀ m, Effect.send 9 (OutFrame.errorFrame m) ∉
      (handleAuthenticate envAll 9 stC4w (some "frank")).2 :=
  authenticate_twice_overwrites envAll 9 stC4w ⟨"frank", some "general"⟩ "frank"
    (by decide) (by decide)

/-! ### Claim C5 -/

/-- A server with no registered connections. -/
def stC5 : ServerState := ⟨[], []⟩

/-- C5, counterexample: an unauthenticated connection sends `join_room`;
the handler produces no effects at all — in particular no error reply is
sent to the sender, refuting the claimed NotAuthenticated error reply. -/
theorem unauthenticated_no_error_reply_counterexample :
    handleFrame envAll 1 stC5 (InFrame.joinRoom "general") = (stC5, []) := by
  decide

/-- C5, amended: every inbound frame other than `authenticate` from an
unauthenticated (unregistered) connection is silently dropped: no reply of
any kind is sent and the registry and room-membership state are unchanged. -/
theorem unauthenticated_frames_silently_dropped (env : Env) (ws : Nat)
    (st : ServerState) (f : InFrame)
    (hc : lookupA ws st.connectedUsers = none)
    (hf : ∀ uid, f ≠ InFrame.authenticate uid) :
    handleFrame env ws st f = (st, []) := by
  cases f with
  | authenticate uid => exact absurd rfl (hf uid)
  | joinRoom r => simp [handleFrame, handleJoinRoom, hc]
  | sendMessage c t i => simp [handleFrame, handleSendMessage, hc]
  | typingStart => simp [handleFrame, handleTypingStart, hc]
  | typingStop => simp [handleFrame, handleTypingStop, hc]

/-- Gail's connection 10 is registered, but connection 4 is not. -/
def stC5w : ServerState := ⟨[(10, ⟨"gail", none⟩)], []⟩

/-- Witness for the amended C5 theorem: a `typing_start` from the
unregistered connection 4 is silently dropped. -/
theorem unauthenticated_frames_silently_dropped_witness :
    handleFrame envAll 4 stC5w InFrame.typingStart = (stC5w, []) :=
  unauthenticated_frames_silently_dropped envAll 4 stC5w InFrame.typingStart
    (by decide) (fun uid h => by simp at h)

/-! ### Claim C9 -/

/-- C9: an `authenticate` frame whose userId is missing or empty does
nothing at all: no registry change, no confirmation, no snapshot, no
broadcast. -/
theorem authenticate_falsy_userId_noop (env : Env) (ws : Nat)
    (st : ServerState) (uid : Option String) (h : jsTruthy uid = false) :
    handleAuthenticate env ws st uid = (st, []) := by
  cases uid with
  | none => rfl
  | some s =>
    have hs : s = "" := by simpa [jsTruthy] using h
    simp [handleAuthenticate, hs]

/-- A server with one registered connection, for the C9 witness. -/
def stC9w : ServerState := ⟨[(13, ⟨"hank", none⟩)], []⟩

/-- Witness for C9: an empty userId leaves the server untouched. -/
theorem authenticate_falsy_userId_noop_witness :
    handleAuthenticate envAll 2 stC9w (some "") = (stC9w, []) :=
  authenticate_falsy_userId_noop envAll 2 stC9w (some "") (by decide)

/-! ### Claim C10 -/

theorem broadcastToRoom_eq (env : Env) (st : ServerState) (room : String)
    (frame : OutFrame) (exclude : Option Nat) :
    broadcastToRoom env st room frame exclude =
      ((socketsIn st room).filter (fun w => notExcluded exclude w && env.isOpen w)).map
        (fun w => Effect.send w frame) := by
  unfold broadcastToRoom socketsIn
  cases hl : lookupA room st.roomSockets <;> simp

/-- C10: `broadcastToRoom` and `broadcastToAll` emit only `send` effects —
no registry or room-membership mutation — and a socket receives the frame
iff it is a member (of the room set, resp. the registry), not excluded, and
its `readyState` is OPEN: non-OPEN sockets are silently skipped, never
removed. -/
theorem broadcasts_only_send_and_skip_closed (env : Env) (st : ServerState)
    (room : String) (frame : OutFrame) (exclude : Option Nat) :
    (∀ e ∈ broadcastToRoom env st room frame exclude, ∃ w, e = Effect.send w frame) ∧
    (∀ w, Effect.send w frame ∈ broadcastToRoom env st room frame exclude ↔
      w ∈ socketsIn st room ∧ notExcluded exclude w = true ∧ env.isOpen w = true) ∧
    (∀ e ∈ broadcastToAll env st frame exclude, ∃ w, e = Effect.send w frame) ∧
    (∀ w, Effect.send w frame ∈ broadcastToAll env st frame exclude ↔
      (∃ u, (w, u) ∈ st.connectedUsers) ∧ notExcluded exclude w = true ∧
        env.isOpen w = true) := by
  refine ⟨?_, ?_, ?_, ?_⟩
  · intro e he
    rw [broadcastToRoom_eq] at he
    obtain ⟨w, _, rfl⟩ := List.mem_map.1 he
    exact ⟨w, rfl⟩
  · intro w
    rw [broadcastToRoom_eq]
    constructor
    · intro h
      obtain ⟨w', hw', heq⟩ := List.mem_map.1 h
      obtain ⟨hmem, hp⟩ := List.mem_filter.1 hw'
      obtain rfl : w' = w := by simpa using heq
      simp only [Bool.and_eq_true] at hp
      exact ⟨hmem, hp.1, hp.2⟩
    · rintro ⟨hmem, h1, h2⟩
      exact List.mem_map.2 ⟨w, List.mem_filter.2 ⟨hmem, by simp [h1, h2]⟩, rfl⟩
  · intro e he
    unfold broadcastToAll at he
    obtain ⟨p, _, rfl⟩ := List.mem_map.1 he
    exact ⟨p.1, rfl⟩
  · intro w
    unfold broadcastToAll
    constructor
    · intro h
      obtain ⟨⟨w', u⟩, hw', heq⟩ := List.mem_map.1 h
      obtain ⟨hmem, hp⟩ := List.mem_filter.1 hw'
      obtain rfl : w' = w := by simpa using heq
      simp only [Bool.and_eq_true] at hp
      exact ⟨⟨u, hmem⟩, hp.1, hp.2⟩
    · rintro ⟨⟨u, hu⟩, h1, h2⟩
      exact List.mem_map.2 ⟨(w, u), List.mem_filter.2 ⟨hu, by simp [h1, h2]⟩, rfl⟩

end ChatVerse
